import Mathlib

/-!
Verification of `utils/local-devnet/service_node_network.py` (oxen-core).

Shallow embedding notes:
* Wall-clock deadlines are modelled by fuel: the number of further loop
  iterations the deadline still allows.  A zero or negative timeout gives
  fuel `0`.
* An RPC predicate attempt is `Except Unit Bool`: `.error ()` models the
  attempt raising an exception, `.ok b` models it returning `b`.
* Python's `/` on these inputs is binary floating point; the model uses
  exact rational division (`ℚ`) with `int` as `Int.floor` (all values here
  are non-negative, where `int` truncation and floor agree).
-/

deriving instance DecidableEq for Except

/-! ### `wait_for` (service_node_network.py lines 30-40) -/

/-- One loop iteration family for `wait_for`: try `callback i`; on `.ok true`
return; otherwise (false or a swallowed exception) check the deadline
(`fuel = 0`), raising `task timeout expired`, else sleep and retry. -/
def waitForAux (callback : ℕ → Except Unit Bool) : ℕ → ℕ → Except String Unit
  | 0, i => if callback i = .ok true then .ok () else .error "task timeout expired"
  | f + 1, i => if callback i = .ok true then .ok () else waitForAux callback f (i + 1)

/-- `wait_for(callback, timeout)`: polls `callback` every 0.25s until it
returns truthy or the deadline passes.  `fuel` is the number of retries the
timeout allows after the initial attempt. -/
def wait_for (callback : ℕ → Except Unit Bool) (fuel : ℕ) : Except String Unit :=
  waitForAux callback fuel 0

/-! ### Seed-entry construction (`SNNetwork.__init__` lines 286-312) -/

/-- Contributor entry pushed into the rewards contract seed list. -/
structure ContractServiceNodeContributor where
  addr : String
  stakedAmount : ℤ
  deriving DecidableEq

/-- Seed entry for one service node: BLS pubkey plus its contributors. -/
structure ContractSeedServiceNode where
  pubkey : String
  contributors : List ContractServiceNodeContributor
  deriving DecidableEq

/-- `int(entry["amount"] / oxen_staking_requirement * contract_staking_requirement)`:
one native-chain contributor amount converted proportionally into
contract-chain units, truncated to an integer. -/
def contributorStake (amount oxenReq contractReq : ℕ) : ℤ :=
  ⌊(amount : ℚ) / (oxenReq : ℚ) * (contractReq : ℚ)⌋

/-- The per-service-node body of the seeding loop (lines 291-312): build one
contributor record per native-chain contributor amount, accumulate
`total_staked`, then add any positive `left_over_to_be_staked` to the first
contributor.  (With an empty contributor list and a positive leftover the
Python indexing `contributors[0]` would raise; registered nodes always have
at least one contributor.) -/
def buildSeedNode (acct bls : String) (amounts : List ℕ) (oxenReq contractReq : ℕ) :
    ContractSeedServiceNode :=
  let contributors := amounts.map fun a =>
    ({ addr := acct, stakedAmount := contributorStake a oxenReq contractReq } :
      ContractServiceNodeContributor)
  let total_staked := (contributors.map fun c => c.stakedAmount).sum
  let left_over_to_be_staked := (contractReq : ℤ) - total_staked
  { pubkey := bls,
    contributors :=
      if 0 < left_over_to_be_staked then
        contributors.modifyHead fun c =>
          { c with stakedAmount := c.stakedAmount + left_over_to_be_staked }
      else contributors }

/-! ### `SNNetwork.sync_nodes` (lines 476-502) -/

/-- Height oracle: `env id t` is the height node `id` reports when queried on
loop tick `t` (tick 0 is the initial bulk query). -/
abbrev HeightEnv := ℕ → ℕ → ℕ

/-- One re-query issued by the sync loop: the node queried, its last-known
height at that moment, and the last-known heights of the other nodes still in
the working set. -/
structure SyncQuery where
  nodeId : ℕ
  lastKnown : ℕ
  othersLastKnown : List ℕ
  deriving DecidableEq

/-- Loop state of `sync_nodes`: the still-waiting `(node, last-known height)`
pairs — the head of `pending` is Python's `nodes[-1]`/`heights[-1]`, i.e. the
list is kept reversed — the dropped nodes with the height they were dropped
at, and the log of re-queries (most recent first). -/
structure SyncState where
  pending : List (ℕ × ℕ)
  done : List (ℕ × ℕ)
  queries : List SyncQuery
  deriving DecidableEq

/-- The `while nodes and time.time() < expiry` loop of `sync_nodes`: each
iteration looks at the last node of the working list; if its last-known
height is below the target it is re-queried; a node at or above the target is
popped.  `fuel` is the number of iterations the deadline still allows. -/
def syncLoop (env : HeightEnv) (target : ℕ) : ℕ → ℕ → SyncState → SyncState
  | 0, _, st => st
  | fuel + 1, tick, st =>
    match st.pending with
    | [] => st
    | (id, h) :: rest =>
      if h < target then
        if target ≤ env id tick then
          syncLoop env target fuel (tick + 1)
            { pending := rest, done := (id, env id tick) :: st.done,
              queries := { nodeId := id, lastKnown := h,
                           othersLastKnown := rest.map Prod.snd } :: st.queries }
        else
          syncLoop env target fuel (tick + 1)
            { pending := (id, env id tick) :: rest, done := st.done,
              queries := { nodeId := id, lastKnown := h,
                           othersLastKnown := rest.map Prod.snd } :: st.queries }
      else
        syncLoop env target fuel (tick + 1)
          { pending := rest, done := (id, h) :: st.done, queries := st.queries }

/-- `[x.height() for x in nodes]`: the initial heights, queried at tick 0. -/
def initialHeights (env : HeightEnv) (numNodes : ℕ) : List ℕ :=
  (List.range numNodes).map fun i => env i 0

/-- Python's `max` on a list (raises on the empty list, hence `Option`). -/
def pyMax : List ℕ → Option ℕ
  | [] => none
  | h :: t => some (t.foldl max h)

/-- Python's `min` on a list (raises on the empty list, hence `Option`). -/
def pyMin : List ℕ → Option ℕ
  | [] => none
  | h :: t => some (t.foldl min h)

/-- The working set as the loop first sees it (reversed, head = `nodes[-1]`). -/
def initialState (env : HeightEnv) (numNodes : ℕ) : SyncState :=
  { pending := ((List.range numNodes).zip (initialHeights env numNodes)).reverse,
    done := [], queries := [] }

/-- `sync_nodes(height, timeout)`: queries each node's height once; a `None`
height becomes the maximum of those heights; if the minimum already meets the
target it returns at once; otherwise it runs the loop and raises
`Timed out waiting for node syncing` if nodes remain below the target when
the deadline (`fuel` loop iterations) elapses. -/
def sync_nodes (env : HeightEnv) (numNodes : ℕ) (height : Option ℕ) (fuel : ℕ) :
    Except String SyncState :=
  match pyMin (initialHeights env numNodes) with
  | none => .error "ValueError: min() arg is an empty sequence"
  | some m =>
    let target := match height with
      | some t => t
      | none => (pyMax (initialHeights env numNodes)).getD 0
    if target ≤ m then
      .ok { pending := [],
            done := (List.range numNodes).zip (initialHeights env numNodes),
            queries := [] }
    else
      let final := syncLoop env target fuel 1 (initialState env numNodes)
      if final.pending = [] then .ok final
      else .error "Timed out waiting for node syncing"

/-- Height oracle used for the concrete `sync_nodes` runs: node 2 starts at
the target, nodes 1 and 0 start at 7 and 5 and gain one block per tick. -/
def envThree : HeightEnv := fun i t =>
  if i = 2 then 10 else if i = 1 then 7 + t else 5 + t

/-- Height oracle with node 0 synced at 10 and node 1 catching up from 8. -/
def envTwo : HeightEnv := fun i t => if i = 0 then 10 else 8 + t

/-! ### Teardown: `SNNetwork.__del__` (lines 528-534) and `cleanup` (597-599) -/

/-- The process handles owned by an `SNNetwork`: daemons (`all_nodes`), the
three main wallets (`wallets`), the nine extra contributor wallets
(`extrawallets`), and `anvil`, which is `some h` when `--anvil-path` was
given (the attribute was assigned the spawned process) and `none` when the
attribute was never set. -/
structure SNNetHandles where
  all_nodes : List ℕ
  wallets : List ℕ
  extrawallets : List ℕ
  anvil : Option ℕ
  deriving DecidableEq

/-- `SNNetwork.__del__`: terminates `all_nodes`, then `self.wallets` (the
three main wallets only), then evaluates `self.anvil` — an `AttributeError`
when the attribute was never set.  Returns the handles terminated, in order,
and the uncaught exception if any. -/
def SNNetwork_del (net : SNNetHandles) : List ℕ × Option String :=
  match net.anvil with
  | some h => (net.all_nodes ++ net.wallets ++ [h], none)
  | none => (net.all_nodes ++ net.wallets, some "AttributeError: anvil")

/-- The `atexit`-registered `cleanup`: when a network exists it evaluates
`snn.anvil` (again an `AttributeError` when unset) and terminates it. -/
def cleanup (net : Option SNNetHandles) : List ℕ × Option String :=
  match net with
  | none => ([], none)
  | some n =>
    match n.anvil with
    | some h => ([h], none)
    | none => ([], some "AttributeError: anvil")

/-- All terminate calls issued at process exit: the `atexit` cleanup followed
by the destructor. -/
def teardownTerminated (net : SNNetHandles) : List ℕ :=
  (cleanup (some net)).1 ++ (SNNetwork_del net).1

/-! ### Seeding / extra-registration checks (`SNNetwork.__init__` lines 314-345) -/

/-- The contract interaction from `seedPublicKeyList` through the
`numberServiceNodes() == 13` assert, as a function of the number of submitted
seed entries and of the counts the contract reports after seeding and after
`addBLSPublicKey`.  The count after seeding appears only in a log line; the
single fatal check is the final assert against the constant 13. -/
def seedAndRegisterStage (numSeedEntries countAfterSeed countAfterAdd : ℕ) :
    List String × Except String Unit :=
  let log1 := "Seeded BLS public keys into contract. Contract has " ++
    toString countAfterSeed ++ " SNs"
  let log2 := "Added node via Eth. Contract has " ++ toString countAfterAdd ++ " SNs"
  if countAfterAdd = 13 then ([log1, log2], .ok ())
  else ([log1, log2],
    .error ("Expected 13 service nodes, received " ++ toString countAfterAdd))

/-! ### `run()` option validation (lines 557-572) -/

/-- Externally visible actions of `run()` before the interactive wait. -/
inductive RunAction
  | registerAtexit
  | spawnNetwork
  deriving DecidableEq

/-- `run()` on a fresh invocation: after argument parsing, a given
`--anvil-path` without `--eth-sn-contracts-dir` raises before anything is
registered or spawned; otherwise `cleanup` is registered and the `SNNetwork`
constructor (which spawns every process) runs. -/
def run_model (anvilPath ethSnContractsDir : Option String) :
    List RunAction × Except String Unit :=
  match anvilPath, ethSnContractsDir with
  | some _, none =>
    ([], .error "--eth-sn-contracts-dir must be specified when --anvil-path is set")
  | _, _ => ([.registerAtexit, .spawnNetwork], .ok ())

/-! ### Theorems -/

/-- Every run of `waitForAux` ends in success or in the timeout error. -/
theorem waitForAux_ok_or_timeout (callback : ℕ → Except Unit Bool) :
    ∀ fuel i, waitForAux callback fuel i = .ok () ∨
      waitForAux callback fuel i = .error "task timeout expired" := by
  intro fuel
  induction fuel with
  | zero =>
    intro i
    by_cases h : callback i = .ok true <;> simp [waitForAux, h]
  | succ f ih =>
    intro i
    by_cases h : callback i = .ok true
    · simp [waitForAux, h]
    · simpa [waitForAux, h] using ih (i + 1)

/-- `waitForAux` succeeds precisely when some attempt in its window returns
`true`. -/
theorem waitForAux_ok_iff (callback : ℕ → Except Unit Bool) :
    ∀ fuel i, waitForAux callback fuel i = .ok () ↔
      ∃ k ≤ fuel, callback (i + k) = .ok true := by
  intro fuel
  induction fuel with
  | zero =>
    intro i
    by_cases h : callback i = .ok true
    · simp only [waitForAux, if_pos h]
      constructor
      · intro _
        exact ⟨0, Nat.le_refl 0, by simpa using h⟩
      · intro _
        trivial
    · simp only [waitForAux, if_neg h]
      constructor
      · intro hcontra
        exact Except.noConfusion hcontra
      · rintro ⟨k, hk, hcb⟩
        rw [Nat.le_zero.mp hk] at hcb
        simp only [Nat.add_zero] at hcb
        exact absurd hcb h
  | succ f ih =>
    intro i
    by_cases h : callback i = .ok true
    · simp only [waitForAux, h, if_pos rfl]
      exact ⟨fun _ => ⟨0, Nat.zero_le _, by simpa using h⟩, fun _ => rfl⟩
    · rw [waitForAux, if_neg h, ih (i + 1)]
      constructor
      · rintro ⟨k, hk, hcb⟩
        exact ⟨k + 1, Nat.succ_le_succ hk, by simpa [Nat.add_assoc, Nat.add_comm 1 k] using hcb⟩
      · rintro ⟨k, hk, hcb⟩
        cases k with
        | zero => exact absurd (by simpa using hcb) h
        | succ k =>
          exact ⟨k, Nat.le_of_succ_le_succ hk,
            by simpa [Nat.add_assoc, Nat.add_comm 1 k] using hcb⟩

/-- Exceptions thrown by an attempt behave exactly as the attempt returning
`False`. -/
theorem waitForAux_swallow (callback : ℕ → Except Unit Bool) :
    ∀ fuel i, waitForAux callback fuel i =
      waitForAux (fun k => match callback k with
        | .ok b => .ok b
        | .error _ => .ok false) fuel i := by
  intro fuel
  have hguard : ∀ i, ((match callback i with
      | .ok b => (.ok b : Except Unit Bool)
      | .error _ => .ok false) = .ok true) ↔ callback i = .ok true := by
    intro i
    cases hcb : callback i with
    | ok b => cases b <;> simp
    | error e => simp
  induction fuel with
  | zero =>
    intro i
    by_cases h : callback i = .ok true <;>
      simp [waitForAux, h, (hguard i).not, hguard i]
  | succ f ih =>
    intro i
    by_cases h : callback i = .ok true
    · simp [waitForAux, h, hguard i]
    · rw [waitForAux, if_neg h, waitForAux, if_neg ((hguard i).not.mpr h)]
      exact ih (i + 1)

/-- C4: `wait_for` returns normally iff some attempt of the predicate within
the deadline window returns true, raises the timeout error iff no attempt
does, and exceptions thrown by an attempt are swallowed (they behave exactly
as the attempt returning false, never propagating). -/
theorem wait_for_spec (callback : ℕ → Except Unit Bool) (fuel : ℕ) :
    (wait_for callback fuel = .ok () ↔ ∃ k ≤ fuel, callback k = .ok true) ∧
    (wait_for callback fuel = .error "task timeout expired" ↔
      ∀ k ≤ fuel, callback k ≠ .ok true) ∧
    wait_for callback fuel =
      wait_for (fun k => match callback k with
        | .ok b => .ok b
        | .error _ => .ok false) fuel := by
  have hok := waitForAux_ok_iff callback fuel 0
  simp only [Nat.zero_add] at hok
  refine ⟨hok, ?_, waitForAux_swallow callback fuel 0⟩
  constructor
  · intro herr k hk hcb
    have : wait_for callback fuel = .ok () := hok.mpr ⟨k, hk, hcb⟩
    rw [this] at herr
    exact Except.noConfusion herr
  · intro hnone
    rcases waitForAux_ok_or_timeout callback fuel 0 with h | h
    · rcases hok.mp h with ⟨k, hk, hcb⟩
      exact absurd hcb (hnone k hk)
    · exact h

/-- Witness for C4 at a concrete input: the predicate succeeds on attempt 1
after an exception on attempt 0, within a 2-retry window. -/
theorem wait_for_spec_witness :
    (wait_for (fun k => if k = 0 then .error () else .ok true) 2 = .ok () ↔
      ∃ k ≤ 2, (fun k => if k = 0 then (.error () : Except Unit Bool) else .ok true) k
        = .ok true) ∧
    (wait_for (fun k => if k = 0 then .error () else .ok true) 2 =
        .error "task timeout expired" ↔
      ∀ k ≤ 2, (fun k => if k = 0 then (.error () : Except Unit Bool) else .ok true) k
        ≠ .ok true) ∧
    wait_for (fun k => if k = 0 then .error () else .ok true) 2 =
      wait_for (fun k => match (if k = 0 then (.error () : Except Unit Bool) else .ok true) with
        | .ok b => .ok b
        | .error _ => .ok false) 2 :=
  wait_for_spec (fun k => if k = 0 then .error () else .ok true) 2

/-- The truncated conversions are bounded by the exact proportional values. -/
theorem contributorStake_sum_le (oxenReq contractReq : ℕ) (amounts : List ℕ) :
    (((amounts.map fun a => contributorStake a oxenReq contractReq).sum : ℤ) : ℚ) ≤
      (amounts.sum : ℚ) / (oxenReq : ℚ) * (contractReq : ℚ) := by
  induction amounts with
  | nil => simp
  | cons a as ih =>
    have h1 : ((contributorStake a oxenReq contractReq : ℤ) : ℚ) ≤
        (a : ℚ) / (oxenReq : ℚ) * (contractReq : ℚ) := Int.floor_le _
    have hsplit : ((a : ℚ) + (as.sum : ℚ)) / (oxenReq : ℚ) * (contractReq : ℚ) =
        (a : ℚ) / (oxenReq : ℚ) * (contractReq : ℚ) +
          (as.sum : ℚ) / (oxenReq : ℚ) * (contractReq : ℚ) := by
      rw [add_div, add_mul]
    simp only [List.map_cons, List.sum_cons, Int.cast_add, Nat.cast_add, hsplit]
    exact add_le_add h1 ih

/-- If the native amounts sum to at most the native requirement, the converted
total is at most the contract requirement. -/
theorem contributorStake_total_le (amounts : List ℕ) (oxenReq contractReq : ℕ)
    (hsum : amounts.sum ≤ oxenReq) (hR : 0 < oxenReq) :
    (amounts.map fun a => contributorStake a oxenReq contractReq).sum ≤ (contractReq : ℤ) := by
  have h1 := contributorStake_sum_le oxenReq contractReq amounts
  have hRq : (0 : ℚ) < (oxenReq : ℚ) := by exact_mod_cast hR
  have h2 : (amounts.sum : ℚ) / (oxenReq : ℚ) ≤ 1 := by
    rw [div_le_one hRq]
    exact_mod_cast hsum
  have h3 : (amounts.sum : ℚ) / (oxenReq : ℚ) * (contractReq : ℚ) ≤ (contractReq : ℚ) := by
    calc (amounts.sum : ℚ) / (oxenReq : ℚ) * (contractReq : ℚ)
        ≤ 1 * (contractReq : ℚ) := mul_le_mul_of_nonneg_right h2 (by positivity)
      _ = (contractReq : ℚ) := one_mul _
  exact_mod_cast h1.trans h3

/-- Mapping the stake projection over the first-contributor adjustment. -/
theorem map_stakedAmount_modifyHead (l : List ContractServiceNodeContributor) (d : ℤ) :
    (l.modifyHead fun c => { c with stakedAmount := c.stakedAmount + d }).map
        (fun c => c.stakedAmount) =
      (l.map fun c => c.stakedAmount).modifyHead fun s => s + d := by
  cases l <;> simp [List.modifyHead]

/-- Adding zero to the head is the identity. -/
theorem modifyHead_add_zero (l : List ℤ) : (l.modifyHead fun s => s + 0) = l := by
  cases l <;> simp [List.modifyHead]

/-- Summing after an adjustment of the head adds the adjustment. -/
theorem sum_modifyHead_add (l : List ℤ) (d : ℤ) (hne : l ≠ []) :
    (l.modifyHead fun s => s + d).sum = l.sum + d := by
  cases l with
  | nil => exact absurd rfl hne
  | cons x xs =>
    simp only [List.modifyHead, List.sum_cons]
    ring

/-- The stake amounts of a built seed entry, in terms of the raw truncated
conversions and the leftover adjustment. -/
theorem buildSeedNode_contributors_map (acct bls : String) (amounts : List ℕ)
    (oxenReq contractReq : ℕ) :
    (buildSeedNode acct bls amounts oxenReq contractReq).contributors.map
        (fun c => c.stakedAmount) =
      (if 0 < (contractReq : ℤ) - (amounts.map fun a => contributorStake a oxenReq contractReq).sum
       then (amounts.map fun a => contributorStake a oxenReq contractReq).modifyHead
         fun s => s + ((contractReq : ℤ) -
           (amounts.map fun a => contributorStake a oxenReq contractReq).sum)
       else amounts.map fun a => contributorStake a oxenReq contractReq) := by
  have hcomp : List.map ((fun c => c.stakedAmount) ∘ fun a =>
      ({ addr := acct, stakedAmount := contributorStake a oxenReq contractReq } :
        ContractServiceNodeContributor)) amounts =
      List.map (fun a => contributorStake a oxenReq contractReq) amounts := rfl
  simp only [buildSeedNode, List.map_map, hcomp]
  split
  · rw [map_stakedAmount_modifyHead, List.map_map, hcomp]
  · rw [List.map_map, hcomp]

/-- C1: for a seed entry built from a non-empty contributor list whose native
amounts sum to at most the native staking requirement (both requirements
positive), the contract-chain stake amounts sum to exactly the contract
staking requirement, the rounding remainder having been added to the first
contributor only. -/
theorem seed_entry_reconciles (acct bls : String) (amounts : List ℕ)
    (oxenReq contractReq : ℕ) (hne : amounts ≠ []) (hsum : amounts.sum ≤ oxenReq)
    (hR : 0 < oxenReq) (hC : 0 < contractReq) :
    ((buildSeedNode acct bls amounts oxenReq contractReq).contributors.map
        fun c => c.stakedAmount).sum = (contractReq : ℤ) ∧
    (buildSeedNode acct bls amounts oxenReq contractReq).contributors.map
        (fun c => c.stakedAmount) =
      (amounts.map fun a => contributorStake a oxenReq contractReq).modifyHead
        fun s => s + ((contractReq : ℤ) -
          (amounts.map fun a => contributorStake a oxenReq contractReq).sum) := by
  have htot : (amounts.map fun a => contributorStake a oxenReq contractReq).sum ≤
      (contractReq : ℤ) := contributorStake_total_le amounts oxenReq contractReq hsum hR
  have hrne : (amounts.map fun a => contributorStake a oxenReq contractReq) ≠ [] := by
    simpa using hne
  have hmap := buildSeedNode_contributors_map acct bls amounts oxenReq contractReq
  have hsecond : (buildSeedNode acct bls amounts oxenReq contractReq).contributors.map
      (fun c => c.stakedAmount) =
      (amounts.map fun a => contributorStake a oxenReq contractReq).modifyHead
        fun s => s + ((contractReq : ℤ) -
          (amounts.map fun a => contributorStake a oxenReq contractReq).sum) := by
    rw [hmap]
    split
    · rfl
    · rename_i hnpos
      have hzero : (contractReq : ℤ) -
          (amounts.map fun a => contributorStake a oxenReq contractReq).sum = 0 := by
        omega
      rw [hzero, modifyHead_add_zero]
  refine ⟨?_, hsecond⟩
  rw [hsecond, sum_modifyHead_add _ _ hrne]
  ring

/-- Witness for C1: three equal contributors of a native requirement of 3
convert into 33 + 33 + 33 with remainder 1 added to the first, totalling the
contract requirement 100. -/
theorem seed_entry_reconciles_witness :
    ([1, 1, 1] : List ℕ) ≠ [] ∧ ([1, 1, 1] : List ℕ).sum ≤ 3 ∧ 0 < 3 ∧ 0 < 100 ∧
    ((buildSeedNode "0xAcct" "blskey" [1, 1, 1] 3 100).contributors.map
        fun c => c.stakedAmount).sum = (100 : ℤ) :=
  ⟨by decide, by decide, by decide, by decide,
    (seed_entry_reconciles "0xAcct" "blskey" [1, 1, 1] 3 100 (by decide) (by decide)
      (by decide) (by decide)).1⟩

/-- C8: a single contributor staking the entire native requirement converts to
the entire contract requirement, and the leftover is zero, so the
remainder-to-operator adjustment does not fire. -/
theorem seed_entry_full_single (acct bls : String) (oxenReq contractReq : ℕ)
    (hR : 0 < oxenReq) :
    ((buildSeedNode acct bls [oxenReq] oxenReq contractReq).contributors.map
        fun c => c.stakedAmount) = [(contractReq : ℤ)] ∧
    (contractReq : ℤ) -
      (([oxenReq].map fun a => contributorStake a oxenReq contractReq).sum) = 0 := by
  have hstake : contributorStake oxenReq oxenReq contractReq = (contractReq : ℤ) := by
    unfold contributorStake
    rw [div_self (by exact_mod_cast hR.ne' : (oxenReq : ℚ) ≠ 0), one_mul, Int.floor_natCast]
  have hleft : (contractReq : ℤ) -
      (([oxenReq].map fun a => contributorStake a oxenReq contractReq).sum) = 0 := by
    simp [hstake]
  refine ⟨?_, hleft⟩
  rw [buildSeedNode_contributors_map]
  simp [hstake]

/-- Witness for C8: native requirement 100, contract requirement 120. -/
theorem seed_entry_full_single_witness :
    0 < 100 ∧
    ((buildSeedNode "0xAcct" "blskey" [100] 100 120).contributors.map
        fun c => c.stakedAmount) = [(120 : ℤ)] :=
  ⟨by decide, (seed_entry_full_single "0xAcct" "blskey" 100 120 (by decide)).1⟩

/-- C10: the predicate is attempted once before the deadline is checked, so a
predicate that is true on its first attempt succeeds even with zero fuel
(a zero or negative timeout). -/
theorem wait_for_first_attempt (callback : ℕ → Except Unit Bool)
    (h : callback 0 = .ok true) : wait_for callback 0 = .ok () := by
  simp [wait_for, waitForAux, h]

/-- Witness for C10: the always-true predicate succeeds with zero fuel. -/
theorem wait_for_first_attempt_witness :
    (fun _ : ℕ => (.ok true : Except Unit Bool)) 0 = .ok true ∧
      wait_for (fun _ => .ok true) 0 = .ok () :=
  ⟨rfl, wait_for_first_attempt (fun _ => .ok true) rfl⟩

/-- A lower bound for Python's left fold of `min`. -/
theorem foldl_min_le (l : List ℕ) :
    ∀ a, l.foldl min a ≤ a ∧ ∀ x ∈ l, l.foldl min a ≤ x := by
  induction l with
  | nil =>
    intro a
    exact ⟨Nat.le_refl a, by simp⟩
  | cons x xs ih =>
    intro a
    refine ⟨Nat.le_trans (ih (min a x)).1 (min_le_left a x), ?_⟩
    intro y hy
    rcases List.mem_cons.mp hy with h | h
    · rw [h]
      exact Nat.le_trans (ih (min a x)).1 (min_le_right a x)
    · exact (ih (min a x)).2 y h

/-- Python's `min` is a lower bound of its list. -/
theorem pyMin_le (l : List ℕ) (m : ℕ) (hm : pyMin l = some m) : ∀ x ∈ l, m ≤ x := by
  cases l with
  | nil => exact absurd hm (by simp [pyMin])
  | cons h tl =>
    simp only [pyMin, Option.some.injEq] at hm
    subst hm
    intro x hx
    rcases List.mem_cons.mp hx with h' | h'
    · rw [h']
      exact (foldl_min_le tl h).1
    · exact (foldl_min_le tl h).2 x h'

/-- The sync loop drops a node only with a height at or above the target. -/
theorem syncLoop_done_ge (env : HeightEnv) (target : ℕ) :
    ∀ fuel tick st, (∀ p ∈ st.done, target ≤ p.2) →
      ∀ p ∈ (syncLoop env target fuel tick st).done, target ≤ p.2 := by
  intro fuel
  induction fuel with
  | zero =>
    intro tick st h
    exact h
  | succ f ih =>
    intro tick st h
    obtain ⟨pending, done, queries⟩ := st
    match pending with
    | [] => exact h
    | (id, hh) :: rest =>
      simp only [syncLoop]
      by_cases h1 : hh < target
      · by_cases h2 : target ≤ env id tick
        · rw [if_pos h1, if_pos h2]
          apply ih
          intro p hp
          rcases List.mem_cons.mp hp with hp | hp
          · rw [hp]
            exact h2
          · exact h p hp
        · rw [if_pos h1, if_neg h2]
          exact ih _ _ h
      · rw [if_neg h1]
        apply ih
        intro p hp
        rcases List.mem_cons.mp hp with hp | hp
        · rw [hp]
          exact Nat.le_of_not_lt h1
        · exact h p hp

/-- The sync loop only moves nodes between the working set and the dropped
set: together they always hold exactly the original nodes. -/
theorem syncLoop_ids_perm (env : HeightEnv) (target : ℕ) :
    ∀ fuel tick st,
      ((syncLoop env target fuel tick st).pending.map Prod.fst ++
        (syncLoop env target fuel tick st).done.map Prod.fst).Perm
      (st.pending.map Prod.fst ++ st.done.map Prod.fst) := by
  intro fuel
  induction fuel with
  | zero =>
    intro tick st
    exact List.Perm.refl _
  | succ f ih =>
    intro tick st
    obtain ⟨pending, done, queries⟩ := st
    match pending with
    | [] => exact List.Perm.refl _
    | (id, hh) :: rest =>
      simp only [syncLoop]
      by_cases h1 : hh < target
      · by_cases h2 : target ≤ env id tick
        · rw [if_pos h1, if_pos h2]
          refine (ih _ _).trans ?_
          simp only [List.map_cons]
          exact List.perm_middle
        · rw [if_pos h1, if_neg h2]
          exact (ih _ _).trans (List.Perm.refl _)
      · rw [if_neg h1]
        refine (ih _ _).trans ?_
        simp only [List.map_cons]
        exact List.perm_middle

/-- The sync loop re-queries a node only while its last-known height is below
the target. -/
theorem syncLoop_queries_lt (env : HeightEnv) (target : ℕ) :
    ∀ fuel tick st, (∀ q ∈ st.queries, q.lastKnown < target) →
      ∀ q ∈ (syncLoop env target fuel tick st).queries, q.lastKnown < target := by
  intro fuel
  induction fuel with
  | zero =>
    intro tick st h
    exact h
  | succ f ih =>
    intro tick st h
    obtain ⟨pending, done, queries⟩ := st
    match pending with
    | [] => exact h
    | (id, hh) :: rest =>
      simp only [syncLoop]
      by_cases h1 : hh < target
      · by_cases h2 : target ≤ env id tick
        · rw [if_pos h1, if_pos h2]
          apply ih
          intro q hq
          rcases List.mem_cons.mp hq with hq | hq
          · rw [hq]
            exact h1
          · exact h q hq
        · rw [if_pos h1, if_neg h2]
          apply ih
          intro q hq
          rcases List.mem_cons.mp hq with hq | hq
          · rw [hq]
            exact h1
          · exact h q hq
      · rw [if_neg h1]
        exact ih _ _ h

/-- C2: whenever the height-sync barrier returns without raising, the nodes it
reports cover exactly the node set and each reported height is at least the
target; and with the target omitted, the target used is the maximum of the
initially observed heights. -/
theorem sync_nodes_barrier (env : HeightEnv) (n t fuel : ℕ) (st : SyncState)
    (hok : sync_nodes env n (some t) fuel = .ok st) :
    ((st.done.map Prod.fst).Perm (List.range n) ∧ ∀ p ∈ st.done, t ≤ p.2) ∧
    ∀ m, pyMax (initialHeights env n) = some m →
      sync_nodes env n none fuel = sync_nodes env n (some m) fuel := by
  have hlen : (initialHeights env n).length = n := by
    simp [initialHeights]
  have hzip : ((List.range n).zip (initialHeights env n)).map Prod.fst = List.range n :=
    List.map_fst_zip _ _ (by simp [hlen])
  constructor
  · unfold sync_nodes at hok
    cases hmin : pyMin (initialHeights env n) with
    | none =>
      rw [hmin] at hok
      exact absurd hok (by simp)
    | some m0 =>
      rw [hmin] at hok
      simp only at hok
      by_cases hle : t ≤ m0
      · rw [if_pos hle] at hok
        have hst := Except.ok.inj hok
        subst hst
        refine ⟨?_, ?_⟩
        · show (((List.range n).zip (initialHeights env n)).map Prod.fst).Perm (List.range n)
          rw [hzip]
        · intro p hp
          have hp2 : p.2 ∈ initialHeights env n := by
            obtain ⟨a, b⟩ := p
            exact (List.of_mem_zip hp).2
          exact Nat.le_trans hle (pyMin_le _ _ hmin _ hp2)
      · rw [if_neg hle] at hok
        by_cases hp : (syncLoop env t fuel 1 (initialState env n)).pending = []
        · rw [if_pos hp] at hok
          have hst := Except.ok.inj hok
          subst hst
          constructor
          · have hperm := syncLoop_ids_perm env t fuel 1 (initialState env n)
            rw [hp] at hperm
            simp only [List.map_nil, List.nil_append, List.append_nil, initialState,
              List.map_reverse] at hperm
            have hlast : (((List.range n).zip (initialHeights env n)).map Prod.fst).Perm
                (List.range n) := by
              rw [hzip]
            exact hperm.trans ((List.reverse_perm _).trans hlast)
          · exact syncLoop_done_ge env t fuel 1 (initialState env n) (by simp [initialState])
        · rw [if_neg hp] at hok
          exact absurd hok (by simp)
  · intro m hm
    unfold sync_nodes
    cases hmin : pyMin (initialHeights env n) with
    | none => rfl
    | some m0 => simp [hm]

/-- Witness for C2: two nodes, one already at the target height 10, one
catching up from 8; the barrier returns with both nodes recorded at 10. -/
theorem sync_nodes_barrier_witness :
    sync_nodes envTwo 2 (some 10) 5 =
      .ok { pending := [], done := [(0, 10), (1, 10)],
            queries := [⟨1, 9, [10]⟩, ⟨1, 8, [10]⟩] } ∧
    (([(0, 10), (1, 10)] : List (ℕ × ℕ)).map Prod.fst).Perm (List.range 2) ∧
    ∀ p ∈ ([(0, 10), (1, 10)] : List (ℕ × ℕ)), 10 ≤ p.2 :=
  ⟨by decide,
   (sync_nodes_barrier envTwo 2 10 5
      { pending := [], done := [(0, 10), (1, 10)],
        queries := [⟨1, 9, [10]⟩, ⟨1, 8, [10]⟩] } (by decide)).1.1,
   (sync_nodes_barrier envTwo 2 10 5
      { pending := [], done := [(0, 10), (1, 10)],
        queries := [⟨1, 9, [10]⟩, ⟨1, 8, [10]⟩] } (by decide)).1.2⟩

/-- C3 counterexample: in this concrete run the loop re-queried node 1 with
last-known height 7 while node 0 was still in the working set with last-known
height 5 < 7, so `sync_nodes` does not re-query the node with the lowest
last-known height (it always re-queries the last node of the working list). -/
theorem sync_nodes_not_lowest_counterexample :
    ¬ ∀ q ∈ (sync_nodes envThree 3 none 10).toOption.elim [] SyncState.queries,
        ∀ h ∈ q.othersLastKnown, q.lastKnown ≤ h := by
  decide

/-- C3 (amended): the loop keeps one best-known height per node, re-queries
one node per tick — the last node of the working list, not the lowest — only
while that node is below the target, drops it once its height reaches the
target, and runs until the working set is empty or the deadline elapses, in
which case `sync_nodes` raises the timeout error to the caller. -/
theorem sync_nodes_loop_spec (env : HeightEnv) (n t fuel m : ℕ)
    (hmin : pyMin (initialHeights env n) = some m) (hlag : m < t) :
    (sync_nodes env n (some t) fuel = .error "Timed out waiting for node syncing" ↔
      (syncLoop env t fuel 1 (initialState env n)).pending ≠ []) ∧
    ∀ st, sync_nodes env n (some t) fuel = .ok st →
      st = syncLoop env t fuel 1 (initialState env n) ∧ st.pending = [] ∧
      ∀ q ∈ st.queries, q.lastKnown < t := by
  have hnot : ¬ t ≤ m := Nat.not_le.mpr hlag
  constructor
  · unfold sync_nodes
    rw [hmin]
    simp only [if_neg hnot]
    by_cases hp : (syncLoop env t fuel 1 (initialState env n)).pending = []
    · simp [hp]
    · simp [hp]
  · intro st hok
    unfold sync_nodes at hok
    rw [hmin] at hok
    simp only [if_neg hnot] at hok
    by_cases hp : (syncLoop env t fuel 1 (initialState env n)).pending = []
    · rw [if_pos hp] at hok
      have hst := Except.ok.inj hok
      subst hst
      exact ⟨rfl, hp,
        syncLoop_queries_lt env t fuel 1 (initialState env n) (by simp [initialState])⟩
    · rw [if_neg hp] at hok
      exact absurd hok (by simp)

/-- Witness for C3's amended statement: three nodes starting at 5, 7 and 10
with target 10 and a deadline of 10 ticks. -/
theorem sync_nodes_loop_spec_witness :
    pyMin (initialHeights envThree 3) = some 5 ∧ 5 < 10 ∧
    ((sync_nodes envThree 3 (some 10) 10 = .error "Timed out waiting for node syncing" ↔
        (syncLoop envThree 10 10 1 (initialState envThree 3)).pending ≠ []) ∧
      ∀ st, sync_nodes envThree 3 (some 10) 10 = .ok st →
        st = syncLoop envThree 10 10 1 (initialState envThree 3) ∧ st.pending = [] ∧
        ∀ q ∈ st.queries, q.lastKnown < 10) :=
  ⟨by decide, by decide, sync_nodes_loop_spec envThree 3 10 10 5 (by decide) (by decide)⟩

/-- C5 counterexample: with daemons 0-1, main wallets 2-4, an extra wallet 5
and anvil 6, teardown never terminates the extra wallet and terminates anvil
twice; and with no anvil spawned the destructor raises `AttributeError`
instead of finishing.  So not every owned process is terminated exactly once
on every exit path. -/
theorem teardown_counterexample :
    (teardownTerminated ⟨[0, 1], [2, 3, 4], [5], some 6⟩).count 5 = 0 ∧
    (teardownTerminated ⟨[0, 1], [2, 3, 4], [5], some 6⟩).count 6 = 2 ∧
    (SNNetwork_del ⟨[0], [1], [2], none⟩).2 = some "AttributeError: anvil" := by
  decide

/-- C5 (amended): at teardown each daemon and each of the three main wallets
is terminated exactly once (by `__del__`); the extra contributor wallets are
never terminated; a spawned anvil process is terminated twice — once by the
`atexit` cleanup and once by `__del__`; and when no anvil path was given both
teardown paths raise `AttributeError` on the unset `anvil` attribute, after
`__del__` has already terminated the daemons and main wallets. -/
theorem teardown_spec (net : SNNetHandles) (h : ℕ)
    (hnodup : (net.all_nodes ++ net.wallets ++ net.extrawallets ++ net.anvil.toList).Nodup) :
    (h ∈ net.all_nodes ++ net.wallets → (teardownTerminated net).count h = 1) ∧
    (h ∈ net.extrawallets → (teardownTerminated net).count h = 0) ∧
    (net.anvil = some h → (teardownTerminated net).count h = 2) ∧
    (net.anvil = none →
      (SNNetwork_del net).2 = some "AttributeError: anvil" ∧
      (cleanup (some net)).2 = some "AttributeError: anvil" ∧
      teardownTerminated net = net.all_nodes ++ net.wallets) := by
  obtain ⟨A, B, C, av⟩ := net
  cases av with
  | none =>
    simp only [Option.toList_none, List.append_nil] at hnodup
    rcases List.nodup_append.mp hnodup with ⟨hAB, hC, hdisjC⟩
    refine ⟨?_, ?_, ?_, ?_⟩
    · intro hmem
      simp only [teardownTerminated, cleanup, SNNetwork_del, List.nil_append]
      exact List.count_eq_one_of_mem hAB hmem
    · intro hmem
      have hnotAB : h ∉ A ++ B := fun hh => hdisjC hh hmem
      simp only [teardownTerminated, cleanup, SNNetwork_del, List.nil_append]
      exact List.count_eq_zero.mpr hnotAB
    · intro hc
      exact absurd hc (by simp)
    · intro _
      exact ⟨rfl, rfl, rfl⟩
  | some a =>
    rcases List.nodup_append.mp hnodup with ⟨hABC, _hD, hdisjD⟩
    rcases List.nodup_append.mp hABC with ⟨hAB, hC, hdisjC⟩
    refine ⟨?_, ?_, ?_, ?_⟩
    · intro hmem
      have hnota : h ∉ [a] := fun hh => hdisjD (List.mem_append_left _ hmem) hh
      have hne : a ≠ h := fun he => hnota (by rw [← he]; exact List.mem_singleton_self a)
      have hcount1 : (A ++ B).count h = 1 := List.count_eq_one_of_mem hAB hmem
      show (([a] ++ (A ++ B ++ [a])) : List ℕ).count h = 1
      simp only [List.count_append, List.count_singleton', if_neg hne, hcount1]
    · intro hmem
      have hnotAB : h ∉ A ++ B := fun hh => hdisjC hh hmem
      have hnota : h ∉ [a] := fun hh => hdisjD (List.mem_append_right _ hmem) hh
      have hne : a ≠ h := fun he => hnota (by rw [← he]; exact List.mem_singleton_self a)
      have hcount0 : (A ++ B).count h = 0 := List.count_eq_zero.mpr hnotAB
      show (([a] ++ (A ++ B ++ [a])) : List ℕ).count h = 0
      simp only [List.count_append, List.count_singleton', if_neg hne, hcount0]
    · intro hc
      have ha : a = h := Option.some.inj hc
      subst ha
      have hnotAB : a ∉ A ++ B :=
        fun hh => hdisjD (List.mem_append_left _ hh) (List.mem_singleton_self a)
      have hcount0 : (A ++ B).count a = 0 := List.count_eq_zero.mpr hnotAB
      rw [List.count_append] at hcount0
      have h0A : A.count a = 0 := by omega
      have h0B : B.count a = 0 := by omega
      show (([a] ++ (A ++ B ++ [a])) : List ℕ).count a = 2
      simp [List.count_append, List.count_singleton', h0A, h0B]
    · intro hc
      exact absurd hc (by simp)

/-- Witness for C5's amended statement: one daemon, one main wallet, one extra
wallet and an anvil process, all with distinct handles. -/
theorem teardown_spec_witness :
    (([0] ++ [1] ++ [2] ++ (some 3 : Option ℕ).toList : List ℕ)).Nodup ∧
    (teardownTerminated ⟨[0], [1], [2], some 3⟩).count 0 = 1 :=
  ⟨by decide, (teardown_spec ⟨[0], [1], [2], some 3⟩ 0 (by decide)).1 (by decide)⟩

/-- C6 counterexample: after submitting 12 seed entries, the contract
reporting only 3 service nodes is not fatal — no comparison against the
submitted count is made after seeding; the stage still succeeds provided the
later post-registration assert (against the constant 13) passes. -/
theorem seed_count_not_checked_counterexample :
    (seedAndRegisterStage 12 3 13).2 = .ok () ∧ (3 : ℕ) ≠ 12 := by
  decide

/-- C6 (amended): the contract count reported after seeding is only logged,
never compared with the number of submitted entries; the sole fatal count
check of the stage is the later assert that after the one extra registration
the count equals the constant 13 (and a failed assert aborts, it is not
retried). -/
theorem seed_stage_check (numSeedEntries countAfterSeed countAfterAdd : ℕ) :
    ((seedAndRegisterStage numSeedEntries countAfterSeed countAfterAdd).2 = .ok () ↔
      countAfterAdd = 13) ∧
    ("Seeded BLS public keys into contract. Contract has " ++ toString countAfterSeed ++
      " SNs") ∈ (seedAndRegisterStage numSeedEntries countAfterSeed countAfterAdd).1 := by
  unfold seedAndRegisterStage
  by_cases hc : countAfterAdd = 13
  · simp [hc]
  · simp [hc]

/-- Witness for C6's amended statement at report 3 after seeding 12 entries. -/
theorem seed_stage_check_witness :
    ((seedAndRegisterStage 12 3 13).2 = .ok () ↔ (13 : ℕ) = 13) ∧
    ("Seeded BLS public keys into contract. Contract has " ++ toString (3 : ℕ) ++
      " SNs") ∈ (seedAndRegisterStage 12 3 13).1 :=
  seed_stage_check 12 3 13

/-- C7 counterexample: with 5 configured service nodes seeded and the
contract reporting 6 = 5 + 1 after the extra registration — an increase of
exactly one over the seeded count — the stage still fails: the assert
compares against the constant 13, not against the seeded count plus one. -/
theorem registration_delta_counterexample :
    (seedAndRegisterStage 5 5 6).2 ≠ .ok () ∧ (6 : ℕ) = 5 + 1 := by
  decide

/-- C7 (amended): after the extra registration the stage asserts that the
contract-reported count equals the constant 13 — fatal on any other value —
which coincides with the seeded count plus one only for the default
configuration of 12 service nodes. -/
theorem registration_count_check (numSeedEntries countAfterSeed countAfterAdd : ℕ) :
    ((seedAndRegisterStage numSeedEntries countAfterSeed countAfterAdd).2 = .ok () ↔
      countAfterAdd = 13) ∧
    (seedAndRegisterStage 12 12 (12 + 1)).2 = .ok () := by
  unfold seedAndRegisterStage
  constructor
  · by_cases hc : countAfterAdd = 13 <;> simp [hc]
  · simp

/-- Witness for C7's amended statement at count 13. -/
theorem registration_count_check_witness :
    ((seedAndRegisterStage 5 5 13).2 = .ok () ↔ (13 : ℕ) = 13) ∧
    (seedAndRegisterStage 12 12 (12 + 1)).2 = .ok () :=
  registration_count_check 5 5 13

/-- C9: when an anvil path is given without the eth-sn-contracts directory,
`run` raises a configuration error and takes no action — in particular the
network (and with it every process) is never spawned; when the anvil path is
omitted the contracts directory is not required and the run proceeds to
spawn the network. -/
theorem run_validates_options (anvilPath ethSnContractsDir : Option String) :
    (anvilPath ≠ none → ethSnContractsDir = none →
      (run_model anvilPath ethSnContractsDir).2 =
        .error "--eth-sn-contracts-dir must be specified when --anvil-path is set" ∧
      (run_model anvilPath ethSnContractsDir).1 = []) ∧
    (anvilPath = none →
      (run_model anvilPath ethSnContractsDir).2 = .ok () ∧
      RunAction.spawnNetwork ∈ (run_model anvilPath ethSnContractsDir).1) := by
  constructor
  · intro h1 h2
    subst h2
    cases anvilPath with
    | none => exact absurd rfl h1
    | some p => exact ⟨rfl, rfl⟩
  · intro h1
    subst h1
    cases ethSnContractsDir with
    | none => exact ⟨rfl, by simp [run_model]⟩
    | some d => exact ⟨rfl, by simp [run_model]⟩

/-- Witness for C9: anvil path given without the contracts directory errors;
both omitted proceeds. -/
theorem run_validates_options_witness :
    (run_model (some "anvil") none).2 =
      .error "--eth-sn-contracts-dir must be specified when --anvil-path is set" ∧
    (run_model none none).2 = .ok () :=
  ⟨((run_validates_options (some "anvil") none).1 (by simp) rfl).1,
   ((run_validates_options none none).2 rfl).1⟩
